import Mathlib

/- Verification of the libfirm SPARC backend specification scripts:
   scripts/registers.py, scripts/beops.py and ir/be/sparc/spec.py
   (Python 2 sources), shallowly embedded below. -/

namespace Firm

/-- A register, as created by `reg(name)` in `scripts/registers.py`; Python
`Register` objects carry only a `name` attribute. -/
structure Register where
  name : String
deriving DecidableEq, Repr

/-- The `reg(name)` factory from `scripts/registers.py`. -/
def reg (name : String) : Register :=
  { name := name }

/-- A register class. In the Python source a register class is a plain class
object: `prepare_class` copies the class's `__name__` into a `name` field;
here the name is carried directly. `flags` is the optional class-level flag
list (absent in the source means empty). -/
structure RegClass where
  name : String
  mode : String
  flags : List String
  registers : List Register
deriving DecidableEq, Repr

/-- The `regclass` decorator of `scripts/registers.py`: `prepare_class` fills in
the class name (already carried here) and the class is appended to the global
`register_classes` list, which is threaded explicitly. The decorator performs
no checks of any kind and cannot fail. -/
def regclass (register_classes : List RegClass) (cls : RegClass) : List RegClass :=
  register_classes ++ [cls]

/-- The `gp` register class of `ir/be/sparc/spec.py` (32 registers; `sp` sits at
declaration index 14, `fp` at index 30). -/
def gp : RegClass :=
  { name := "gp", mode := "mode_Iu", flags := [],
    registers := List.map reg [
      "g0", "g1", "g2", "g3", "g4", "g5", "g6", "g7",
      "o0", "o1", "o2", "o3", "o4", "o5", "sp", "o7",
      "l0", "l1", "l2", "l3", "l4", "l5", "l6", "l7",
      "i0", "i1", "i2", "i3", "i4", "i5", "fp", "i7"] }

/-- The `fp` register class of `ir/be/sparc/spec.py` (f0 .. f31). -/
def fp : RegClass :=
  { name := "fp", mode := "mode_F", flags := [],
    registers := (List.range 32).map (fun num => reg ("f" ++ toString num)) }

/-- The `flags` register class of `ir/be/sparc/spec.py`. -/
def flags : RegClass :=
  { name := "flags", mode := "mode_Bu", flags := ["manual_ra"],
    registers := [reg "flags"] }

/-- The `fpflags` register class of `ir/be/sparc/spec.py`. -/
def fpflags : RegClass :=
  { name := "fpflags", mode := "mode_Bu", flags := ["manual_ra"],
    registers := [reg "fpflags"] }

/-- One word of the bitmask literal built by `make_limit_bitset`: either the
text `0`, or `1` shifted by the symbolic constant `REG_<CLASS>_<REGISTER>`
(shifted modulo 32 when `modded` is true, which the source uses in every word
past the first). -/
inductive LimitWord where
  | zero : LimitWord
  | bit (sym : String) (modded : Bool) : LimitWord
deriving DecidableEq, Repr

/-- The symbolic register constant `REG_<CLASS>_<REGISTER>` interpolated by
`make_limit_bitset`. -/
def regSym (cls : RegClass) (register : Register) : String :=
  "REG_" ++ cls.name.toUpper ++ "_" ++ register.name.toUpper

/-- The word sequence built by the loop of `make_limit_bitset` in
`scripts/registers.py`: `n_buckets = (n_regs+31) / 32` words (Python 2 `/` on
ints is floor division, as is `Nat` division); word `b` holds the shifted
constant when `index >= b*32 and index < (b+1)*32` and the text `0` otherwise,
and the constant is written modulo 32 in words with `b > 0`.
`cls.registers.index(register)` resolves by Python object identity, i.e. to the
first list position holding that register object; registers are distinct
objects, so for name-distinct classes this is `List.indexOf` under name
equality. -/
def make_limit_words (cls : RegClass) (register : Register) : List LimitWord :=
  let n_regs := cls.registers.length
  let n_buckets := (n_regs + 31) / 32
  let index := cls.registers.indexOf register
  (List.range n_buckets).map (fun b =>
    if b * 32 ≤ index ∧ index < (b + 1) * 32 then
      if 0 < b then LimitWord.bit (regSym cls register) true
      else LimitWord.bit (regSym cls register) false
    else LimitWord.zero)

/-- Rendering of one word as C source text, exactly as `make_limit_bitset`
concatenates it. -/
def renderWord : LimitWord → String
  | LimitWord.zero => "0"
  | LimitWord.bit sym false => "(1 << " ++ sym ++ ")"
  | LimitWord.bit sym true => "(1 << (" ++ sym ++ " % 32))"

/-- `make_limit_bitset(cls, register)` from `scripts/registers.py`: the brace
literal whose words are joined by a comma and a space. -/
def make_limit_bitset (cls : RegClass) (register : Register) : String :=
  "\x7b " ++ String.intercalate ", " ((make_limit_words cls register).map renderWord) ++ " \x7d"

/-- C evaluation of one rendered word, given an environment assigning numeric
values to the symbolic register constants. -/
def evalWord (env : String → Nat) : LimitWord → Nat
  | LimitWord.zero => 0
  | LimitWord.bit sym false => 2 ^ env sym
  | LimitWord.bit sym true => 2 ^ (env sym % 32)

/-- The tag held in a requirement's `kind` field. In `scripts/beops.py` the
field stores the creating function itself (`singlereq`, `producestackreq`) or
the `noreq` sentinel; modelled as an enumeration. -/
inductive ReqKind where
  | singlereq : ReqKind
  | producestackreq : ReqKind
  | noreq : ReqKind
deriving DecidableEq, Repr

/-- `RegisterReq` from `scripts/beops.py`. The `cls` and `reg` fields are set
only by `singlereq`/`producestackreq` and are absent on the `noreq` sentinel,
hence optional. -/
structure RegisterReq where
  kind : ReqKind
  cls : Option RegClass
  reg : Option Register
deriving DecidableEq, Repr

/-- `singlereq(regclass, regname)` from `scripts/beops.py`: scan
`regclass.registers` front to back and stop at the first register whose name
equals `regname` (the loop breaks on the first hit); raise — here
`Except.error`, carrying the source's message — when none matches. The
`print` tracing line of the source has no effect on the result and is
omitted. -/
def singlereq (regclass : RegClass) (regname : String) : Except String RegisterReq :=
  match regclass.registers.find? (fun r => r.name == regname) with
  | none =>
      Except.error ("No register named " ++ regname ++ " in regclass " ++ regclass.name)
  | some r =>
      Except.ok { kind := ReqKind.singlereq, cls := some regclass, reg := some r }

/-- `producestackreq(regclass, regname)` from `scripts/beops.py`: the result of
`singlereq` with the `kind` field overwritten. -/
def producestackreq (regclass : RegClass) (regname : String) : Except String RegisterReq :=
  (singlereq regclass regname).map (fun req => { req with kind := ReqKind.producestackreq })

/-- The `noreq` sentinel from `scripts/beops.py` (in the source its `kind`
field names the sentinel itself). -/
def noreq : RegisterReq :=
  { kind := ReqKind.noreq, cls := none, reg := none }

/-- An element of an `in_reqs`/`out_reqs` list in `ir/be/sparc/spec.py`: either
a register class object (unconstrained-by-class) or a `RegisterReq`. -/
inductive PyReq where
  | cls (c : RegClass) : PyReq
  | req (r : RegisterReq) : PyReq
deriving DecidableEq, Repr

/-- `Constructor` from `scripts/beops.py`. -/
structure Constructor where
  name : String
  attr : String
  custominit : String
  in_reqs : List PyReq
  ins : List String
deriving DecidableEq, Repr

/-- The `constructor(...)` factory from `scripts/beops.py`. The source declares
keyword defaults `attr=""`, `custominit=""`, `in_reqs=[]`, `ins=[]`; the
transcribed call sites below pass all five arguments positionally. -/
def constructor (name attr custominit : String) (in_reqs : List PyReq)
    (ins : List String) : Constructor :=
  { name := name, attr := attr, custominit := custominit, in_reqs := in_reqs, ins := ins }

/-- A node attribute holding operands or requirements in `ir/be/sparc/spec.py`
is either the variadic marker string `"..."` or a fixed list. -/
inductive OperandList (α : Type) where
  | variadic : OperandList α
  | fixed (l : List α) : OperandList α
deriving DecidableEq, Repr

/-- The attributes a node-specification class body in `ir/be/sparc/spec.py` may
assign. A field is `none` when the class body does not assign it (Python
attribute lookup then falls through to the base class). `emit` distinguishes
unset (`none`) from an explicit `None` (`some none`). `outs_reqs` transcribes
the attribute of that spelling assigned by the `Start` class. -/
structure OpSpec where
  pinned : Option String := none
  flags : Option (List String) := none
  beflags : Option (List String) := none
  attr_struct : Option String := none
  mode : Option String := none
  ins : Option (OperandList String) := none
  outs : Option (OperandList String) := none
  in_reqs : Option (OperandList PyReq) := none
  out_reqs : Option (OperandList PyReq) := none
  outs_reqs : Option (OperandList PyReq) := none
  emit : Option (Option String) := none
  attr : Option String := none
  init_attr : Option String := none
  constructors : Option (List Constructor) := none
deriving DecidableEq, Repr

/-- Python attribute lookup across one inheritance step: an attribute assigned
by the derived class body shadows the base's; anything unset is inherited
unchanged. -/
def mergeSpec (base o : OpSpec) : OpSpec :=
  { pinned := o.pinned <|> base.pinned,
    flags := o.flags <|> base.flags,
    beflags := o.beflags <|> base.beflags,
    attr_struct := o.attr_struct <|> base.attr_struct,
    mode := o.mode <|> base.mode,
    ins := o.ins <|> base.ins,
    outs := o.outs <|> base.outs,
    in_reqs := o.in_reqs <|> base.in_reqs,
    out_reqs := o.out_reqs <|> base.out_reqs,
    outs_reqs := o.outs_reqs <|> base.outs_reqs,
    emit := o.emit <|> base.emit,
    attr := o.attr <|> base.attr,
    init_attr := o.init_attr <|> base.init_attr,
    constructors := o.constructors <|> base.constructors }

/-- The empty root of every base chain: no attribute assigned. -/
def emptySpec : OpSpec := {}

/-- Resolution of a linear base chain, listed root first and leaf last, by
Python attribute lookup: the leaf's assignments win, unset attributes fall
through to earlier levels. -/
def resolveChain (chain : List OpSpec) : OpSpec :=
  chain.foldl mergeSpec emptySpec

/-- Own assignments of class `SparcBase` (`ir/be/sparc/spec.py`). -/
def SparcBase : OpSpec :=
  { attr_struct := some "sparc_attr_t" }

/-- Own assignments of class `Start` (note the source assigns the misspelled
attribute `outs_reqs`, not `out_reqs`). -/
def Start : OpSpec :=
  { beflags := some ["schedule_first"], pinned := some "yes",
    outs_reqs := some OperandList.variadic,
    ins := some (OperandList.fixed []), emit := some none }

/-- Own assignments of class `JumpBase`. -/
def JumpBase : OpSpec :=
  { pinned := some "yes", flags := some ["cfopcode"],
    out_reqs := some (OperandList.fixed [PyReq.req noreq]),
    mode := some "mode_X" }

/-- Own assignments of class `BranchBase`. -/
def BranchBase : OpSpec :=
  { flags := some ["cfopcode", "forking"], beflags := some ["has_delay_slot"],
    attr_struct := some "sparc_jmp_cond_attr_t",
    ins := some (OperandList.fixed ["flags"]),
    outs := some (OperandList.fixed ["false", "true"]),
    out_reqs := some (OperandList.fixed [PyReq.req noreq, PyReq.req noreq]) }

/-- Own assignments of class `Ba`. -/
def Ba : OpSpec :=
  { beflags := some ["simple_jump"] }

/-- Own assignments of class `Return`. -/
def Return : OpSpec :=
  { beflags := some ["has_delay_slot"], in_reqs := some OperandList.variadic,
    constructors := some [
      constructor "imm" "ir_entity *entity, int32_t offset"
        "sparc_set_attr_imm(res, entity, offset);" [] [],
      constructor "reg" "" "" [] []] }

/-- Own assignments of class `Call`. -/
def Call : OpSpec :=
  { beflags := some ["has_delay_slot"], pinned := some "exception",
    in_reqs := some OperandList.variadic, out_reqs := some OperandList.variadic,
    outs := some (OperandList.fixed ["M", "stack", "first_result"]),
    attr_struct := some "sparc_call_attr_t",
    constructors := some [
      constructor "imm"
        "ir_type *call_type, ir_entity *entity, int32_t offset, bool aggregate_return"
        ("sparc_set_attr_imm(res, entity, offset);\n" ++
         "\tif (aggregate_return) arch_add_irn_flags(res, (arch_irn_flags_t)sparc_arch_irn_flag_aggregate_return);")
        [] [],
      constructor "reg" "ir_type *call_type, bool aggregate_return"
        "if (aggregate_return) arch_add_irn_flags(res, (arch_irn_flags_t)sparc_arch_irn_flag_aggregate_return);"
        [] []] }

/-- Own assignments of class `SwitchJmp` (the in-scope alias `_flagscls` of the
source denotes the `flags` register class). -/
def SwitchJmp : OpSpec :=
  { in_reqs := some (OperandList.fixed [PyReq.cls gp]),
    out_reqs := some OperandList.variadic,
    attr_struct := some "sparc_switch_jmp_attr_t",
    constructors := some [
      constructor "" "const ir_switch_table *table, ir_entity *jump_table" "" [] []] }

/-- Own assignments of class `Bicc`. -/
def Bicc : OpSpec :=
  { attr := some "ir_relation relation, bool is_unsigned",
    init_attr := some "init_sparc_jmp_cond_attr(res, relation, is_unsigned);",
    in_reqs := some (OperandList.fixed [PyReq.cls flags]) }

/-- Own assignments of class `fbfcc`. -/
def fbfcc : OpSpec :=
  { attr := some "ir_relation relation",
    init_attr := some "init_sparc_jmp_cond_attr(res, relation, false);",
    in_reqs := some (OperandList.fixed [PyReq.cls fpflags]) }

/-- The `_binop_constructors` list of `ir/be/sparc/spec.py`. -/
def binop_constructors : List Constructor :=
  [constructor "imm" "ir_entity *immediate_entity, int32_t immediate_value"
     "sparc_set_attr_imm(res, immediate_entity, immediate_value);"
     [PyReq.cls gp] ["left"],
   constructor "reg" "" "" [PyReq.cls gp, PyReq.cls gp] ["left", "right"]]

/-- Own assignments of class `BinopBase`. -/
def BinopBase : OpSpec :=
  { beflags := some ["rematerializable"], mode := some gp.mode,
    out_reqs := some (OperandList.fixed [PyReq.cls gp]),
    constructors := some binop_constructors }

/-- Own assignments of class `BinopCCBase`. -/
def BinopCCBase : OpSpec :=
  { beflags := some ["rematerializable"],
    outs := some (OperandList.fixed ["res", "flags"]),
    out_reqs := some (OperandList.fixed [PyReq.cls gp, PyReq.cls flags]),
    constructors := some binop_constructors }

/-- Own assignments of class `BinopCCZeroBase`. -/
def BinopCCZeroBase : OpSpec :=
  { beflags := some ["rematerializable"], mode := some flags.mode,
    out_reqs := some (OperandList.fixed [PyReq.cls flags]),
    constructors := some binop_constructors }

/-- Own assignments of class `BinopXBase` (its `rematerializable` flag is
commented out in the source). -/
def BinopXBase : OpSpec :=
  { out_reqs := some (OperandList.fixed [PyReq.cls gp]), mode := some gp.mode,
    constructors := some [
      constructor "imm" "ir_entity *immediate_entity, int32_t immediate_value"
        "sparc_set_attr_imm(res, immediate_entity, immediate_value);"
        [PyReq.cls gp, PyReq.cls flags] ["left", "carry"],
      constructor "reg" "" ""
        [PyReq.cls gp, PyReq.cls gp, PyReq.cls flags] ["left", "right", "carry"]] }

/-- A class body consisting only of an `emit` assignment, as used by the
concrete arithmetic opcodes. -/
def emitOnly (s : String) : OpSpec :=
  { emit := some (some s) }

/-- One node-specification declaration of `ir/be/sparc/spec.py`: its bare
class name, whether it is decorated with `@op` (concrete), and its base chain
(root first, own class body last). -/
structure Declaration where
  name : String
  isOp : Bool
  chain : List OpSpec
deriving DecidableEq, Repr

/-- The node-specification declarations of `ir/be/sparc/spec.py`, in source
order. `AddSP` is omitted: its class body binds 1-tuples rather than lists
(see `AddSP_in_reqs` and claim C9 below), which `OpSpec` does not represent. -/
def sparcDecls : List Declaration :=
  [{ name := "SparcBase", isOp := false, chain := [SparcBase] },
   { name := "Start", isOp := true, chain := [SparcBase, Start] },
   { name := "JumpBase", isOp := false, chain := [SparcBase, JumpBase] },
   { name := "BranchBase", isOp := false, chain := [SparcBase, JumpBase, BranchBase] },
   { name := "Ba", isOp := true, chain := [SparcBase, JumpBase, Ba] },
   { name := "Return", isOp := true, chain := [SparcBase, JumpBase, Return] },
   { name := "Call", isOp := true, chain := [SparcBase, JumpBase, Call] },
   { name := "SwitchJmp", isOp := true, chain := [SparcBase, JumpBase, BranchBase, SwitchJmp] },
   { name := "Bicc", isOp := true, chain := [SparcBase, JumpBase, BranchBase, Bicc] },
   { name := "fbfcc", isOp := true, chain := [SparcBase, JumpBase, BranchBase, fbfcc] },
   { name := "BinopBase", isOp := false, chain := [SparcBase, BinopBase] },
   { name := "BinopCCBase", isOp := false, chain := [SparcBase, BinopCCBase] },
   { name := "BinopCCZeroBase", isOp := false, chain := [SparcBase, BinopCCZeroBase] },
   { name := "BinopXBase", isOp := false, chain := [SparcBase, BinopXBase] },
   { name := "Add", isOp := true, chain := [SparcBase, BinopBase, emitOnly "add %S0, %SI1, %D0"] },
   { name := "AddCC", isOp := true, chain := [SparcBase, BinopCCBase, emitOnly "addcc %S0, %SI1, %D0"] },
   { name := "AddCCZero", isOp := true, chain := [SparcBase, BinopCCZeroBase, emitOnly "addcc %S0, %SI1, %%g0"] },
   { name := "AddX", isOp := true, chain := [SparcBase, BinopXBase, emitOnly "addx %S0, %SI1, %D0"] },
   { name := "Sub", isOp := true, chain := [SparcBase, BinopBase, emitOnly "sub %S0, %SI1, %D0"] },
   { name := "SubCC", isOp := true, chain := [SparcBase, BinopCCBase, emitOnly "subcc %S0, %SI1, %D0"] },
   { name := "SubCCZero", isOp := true, chain := [SparcBase, BinopCCZeroBase, emitOnly "subcc %S0, %SI1, %%g0"] },
   { name := "SubX", isOp := true, chain := [SparcBase, BinopXBase, emitOnly "subx %S0, %SI1, %D0"] },
   { name := "Sll", isOp := true, chain := [SparcBase, BinopBase, emitOnly "sll %S0, %SI1, %D0"] },
   { name := "Srl", isOp := true, chain := [SparcBase, BinopBase, emitOnly "srl %S0, %SI1, %D0"] },
   { name := "Sra", isOp := true, chain := [SparcBase, BinopBase, emitOnly "sra %S0, %SI1, %D0"] },
   { name := "And", isOp := true, chain := [SparcBase, BinopBase, emitOnly "and %S0, %SI1, %D0"] },
   { name := "AndN", isOp := true, chain := [SparcBase, BinopBase, emitOnly "andn %S0, %SI1, %D0"] }]

/-- One finalized opcode: a name and the merged attribute record. -/
structure IrOp where
  name : String
  spec : OpSpec
deriving DecidableEq, Repr

/-- Modelled from the spec: `prepare_nodes` is imported from module `irops`,
which is not among the sources (only this call site is). Per spec sections 4.3
and 4.4 it resolves each declaration's base chain and partitions the declared
node specifications into the concrete (`@op`-decorated) list and the abstract
base list, both in declaration order. Names are taken verbatim from the
declarations: the visible caller in `ir/be/sparc/spec.py` performs the
architecture qualification itself, after this call. -/
def prepare_nodes (decls : List Declaration) : List IrOp × List IrOp :=
  ((decls.filter (fun d => d.isOp)).map
      (fun d => { name := d.name, spec := resolveChain d.chain }),
   (decls.filter (fun d => !d.isOp)).map
      (fun d => { name := d.name, spec := resolveChain d.chain }))

/-- The finalization step written out in `ir/be/sparc/spec.py` lines 248-252:
`(nodes, abstract_nodes) = prepare_nodes(globals())` followed by the loop
`for node in nodes: node.name = "sparc_" + node.name`. Only the concrete
`nodes` list is renamed; `abstract_nodes` is exported as returned. -/
def finalize_nodes (decls : List Declaration) : List IrOp × List IrOp :=
  let p := prepare_nodes decls
  (p.1.map (fun n => { n with name := "sparc_" ++ n.name }), p.2)

/-- The build-time validation error of spec section 7, naming the offending
opcode and field. -/
structure MalformedSpecError where
  opcode : String
  field : String
deriving DecidableEq, Repr

/-- Modelled from the spec: the fixed-length check of spec section 4.3 rule (1),
performed by node preparation in module `irops`, which is absent from the
sources. When both the operand-name list and the requirement list are given as
fixed lists their lengths must agree; the variadic marker (and an unset
attribute) exempts the pair from the check. -/
def checkLens (opcode field : String) (operands : Option (OperandList String))
    (reqs : Option (OperandList PyReq)) : Except MalformedSpecError Unit :=
  match operands, reqs with
  | some (OperandList.fixed os), some (OperandList.fixed rs) =>
      if os.length = rs.length then Except.ok ()
      else Except.error { opcode := opcode, field := field }
  | _, _ => Except.ok ()

/-- Modelled from the spec: the constructor check of spec section 4.3 rule (2) —
each constructor's operand-requirement list must be exactly as long as its
named-operand list. -/
def checkConstructors (opcode : String) : List Constructor → Except MalformedSpecError Unit
  | [] => Except.ok ()
  | c :: cs =>
      if c.in_reqs.length = c.ins.length then checkConstructors opcode cs
      else Except.error { opcode := opcode, field := "ins" }

/-- Modelled from the spec: the validation of a merged node specification
(spec section 4.3, rules (1) and (2)), performed by module `irops`, which is
absent from the sources. -/
def validateNode (opcode : String) (s : OpSpec) : Except MalformedSpecError Unit :=
  match checkLens opcode "out_reqs" s.outs s.out_reqs with
  | Except.error e => Except.error e
  | Except.ok _ =>
    match checkLens opcode "in_reqs" s.ins s.in_reqs with
    | Except.error e => Except.error e
    | Except.ok _ => checkConstructors opcode (s.constructors.getD [])

/-- The Boolean condition `checkLens` enforces on one operand/requirement
pair: fixed lists must agree in length, anything else passes. -/
def lensCond (operands : Option (OperandList String))
    (reqs : Option (OperandList PyReq)) : Bool :=
  match operands, reqs with
  | some (OperandList.fixed os), some (OperandList.fixed rs) => os.length == rs.length
  | _, _ => true

/-- The Boolean condition under which `validateNode` accepts: fixed
operand/requirement pairs agree in length and every constructor is
shape-consistent. -/
def specLensOk (s : OpSpec) : Bool :=
  lensCond s.outs s.out_reqs && lensCond s.ins s.in_reqs &&
  (s.constructors.getD []).all (fun c => c.in_reqs.length == c.ins.length)

/-- The requirement value of `singlereq(gp, "sp")` in `ir/be/sparc/spec.py`
(see `singlereq_gp_sp`). -/
def sp_single : RegisterReq :=
  { kind := ReqKind.singlereq, cls := some gp, reg := some (reg "sp") }

/-- The requirement value of `producestackreq(gp, "sp")` in
`ir/be/sparc/spec.py` (see `producestackreq_gp_sp`). -/
def sp_produce : RegisterReq :=
  { kind := ReqKind.producestackreq, cls := some gp, reg := some (reg "sp") }

/-- A Python value as it appears on the right-hand side of the `AddSP` class
body: lists, tuples, requirement objects, register-class objects and strings. -/
inductive PyVal where
  | vlist (xs : List PyVal) : PyVal
  | vtuple (xs : List PyVal) : PyVal
  | vreq (r : RegisterReq) : PyVal
  | vcls (c : RegClass) : PyVal
  | vstr (s : String) : PyVal

/-- Python expression-list semantics for the right-hand side of an assignment:
a lone expression without trailing comma denotes itself; an expression list
with a trailing comma (or with two or more members) is a tuple display. -/
def assignRHS (items : List PyVal) (trailingComma : Bool) : PyVal :=
  match items, trailingComma with
  | [x], false => x
  | xs, _ => PyVal.vtuple xs

/-- The `in_reqs` assignment of the `AddSP` class body (`ir/be/sparc/spec.py`
line 199), transcribed with its trailing comma. -/
def AddSP_in_reqs : PyVal :=
  assignRHS [PyVal.vlist [PyVal.vreq sp_single, PyVal.vcls gp]] true

/-- The `out_reqs` assignment of the `AddSP` class body (line 200), transcribed
with its trailing comma. -/
def AddSP_out_reqs : PyVal :=
  assignRHS [PyVal.vlist [PyVal.vreq sp_produce]] true

/-- The `ins` assignment of the `AddSP` class body (line 201), transcribed with
its trailing comma. -/
def AddSP_ins : PyVal :=
  assignRHS [PyVal.vlist [PyVal.vstr "stack", PyVal.vstr "size"]] true

/-- The `outs` assignment of the `AddSP` class body (line 202), transcribed
with its trailing comma. -/
def AddSP_outs : PyVal :=
  assignRHS [PyVal.vlist [PyVal.vstr "stack"]] true

/-- The `mode` assignment of the `AddSP` class body (line 203), which has no
trailing comma. -/
def AddSP_mode : PyVal :=
  assignRHS [PyVal.vstr gp.mode] false

/-- A register class whose register list repeats the name `x`, used to
exercise the duplicate-name behaviour of `regclass` and `singlereq`. -/
def dupcls : RegClass :=
  { name := "dup", mode := "mode_Iu", flags := [],
    registers := [reg "x", reg "y", reg "x"] }

/-- A register class named `clsA` owning a register named `x`. -/
def clsA : RegClass :=
  { name := "clsA", mode := "mode_Iu", flags := [], registers := [reg "x"] }

/-- A register class named `clsB` also owning a register named `x`. -/
def clsB : RegClass :=
  { name := "clsB", mode := "mode_Iu", flags := [], registers := [reg "x"] }

/-- The merged `Call` specification (chain `SparcBase`, `JumpBase`, `Call`). -/
def CallResolved : OpSpec :=
  resolveChain [SparcBase, JumpBase, Call]

/-- A node specification carrying the immediate-variant constructor of spec
scenario 3 in its broken form: one named input `left` but two requirements. -/
def immBadSpec : OpSpec :=
  { constructors := some
      [constructor "immediate" "" "" [PyReq.cls clsA, PyReq.cls clsA] ["left"]] }

/-- Helper: `find?` returns the element at index `i` when that element
satisfies the predicate and no earlier element does. -/
theorem find?_first {α : Type} (p : α → Bool) (l : List α) (i : Nat)
    (hi : i < l.length) (hp : p (l.get ⟨i, hi⟩) = true)
    (hfirst : ∀ j (hj : j < i), p (l.get ⟨j, Nat.lt_trans hj hi⟩) = false) :
    l.find? p = some (l.get ⟨i, hi⟩) := by
  induction l generalizing i with
  | nil => exact absurd hi (Nat.not_lt_zero i)
  | cons a l ih =>
      cases i with
      | zero => exact List.find?_cons_of_pos _ hp
      | succ n =>
          have ha : p a = false := hfirst 0 (Nat.succ_pos n)
          rw [List.find?_cons_of_neg _ (by simp [ha])]
          exact ih n (Nat.lt_of_succ_lt_succ hi) hp
            (fun j hj => hfirst (j + 1) (Nat.succ_lt_succ hj))

/-- Helper: under name-uniqueness, scanning for the name of a member register
finds that very register. -/
theorem find?_name_of_mem {l : List Register} {r : Register}
    (hnodup : (l.map Register.name).Nodup) (hr : r ∈ l) :
    l.find? (fun x => x.name == r.name) = some r := by
  induction l with
  | nil => cases hr
  | cons a l ih =>
      rcases List.mem_cons.mp hr with rfl | hmem
      · exact List.find?_cons_of_pos _ (by simp)
      · have hne : (a.name == r.name) = false := by
          apply beq_eq_false_iff_ne.mpr
          intro h
          have hmm : r.name ∈ l.map Register.name := List.mem_map_of_mem _ hmem
          rw [← h] at hmm
          exact (List.nodup_cons.mp hnodup).1 hmm
        rw [List.find?_cons_of_neg _ (by simp [hne])]
        exact ih (List.nodup_cons.mp hnodup).2 hmem

/-- C3 counterexample: `regclass` performs no duplicate detection whatsoever —
declaring a register class in which two registers share the name `x` succeeds
(the class is appended to the registry) instead of failing with
`DuplicateRegisterError`, and re-declaring an already-used class name also
succeeds instead of failing with `DuplicateClassError`. -/
theorem regclass_accepts_duplicates :
    regclass [] dupcls = [dupcls] ∧
    regclass [clsA] { clsA with registers := [reg "y"] } =
      [clsA, { clsA with registers := [reg "y"] }] :=
  ⟨rfl, rfl⟩

/-- C3 (amended): `regclass` never fails: every declaration appends the class
to the registry unchecked. In particular a class with two same-named registers
is accepted, a reused class name is accepted, and declaring the same register
name in two different classes succeeds as well. -/
theorem regclass_never_fails (register_classes : List RegClass) (cls : RegClass) :
    regclass register_classes cls = register_classes ++ [cls] ∧
    regclass [] dupcls = [dupcls] ∧
    regclass (regclass [] clsA) clsB = [clsA, clsB] :=
  ⟨rfl, rfl, rfl⟩

/-- C9: in the `AddSP` class body, each of the four assignments `in_reqs`,
`out_reqs`, `ins` and `outs` carries a trailing comma, so under Python's
expression-list syntax each binds a 1-tuple containing the intended list
rather than the list itself (`mode`, without trailing comma, binds the plain
value). -/
theorem AddSP_fields_are_one_tuples :
    AddSP_in_reqs = PyVal.vtuple [PyVal.vlist [PyVal.vreq sp_single, PyVal.vcls gp]] ∧
    AddSP_in_reqs ≠ PyVal.vlist [PyVal.vreq sp_single, PyVal.vcls gp] ∧
    AddSP_out_reqs = PyVal.vtuple [PyVal.vlist [PyVal.vreq sp_produce]] ∧
    AddSP_out_reqs ≠ PyVal.vlist [PyVal.vreq sp_produce] ∧
    AddSP_ins = PyVal.vtuple [PyVal.vlist [PyVal.vstr "stack", PyVal.vstr "size"]] ∧
    AddSP_ins ≠ PyVal.vlist [PyVal.vstr "stack", PyVal.vstr "size"] ∧
    AddSP_outs = PyVal.vtuple [PyVal.vlist [PyVal.vstr "stack"]] ∧
    AddSP_outs ≠ PyVal.vlist [PyVal.vstr "stack"] ∧
    AddSP_mode = PyVal.vstr "mode_Iu" ∧
    singlereq gp "sp" = Except.ok sp_single ∧
    producestackreq gp "sp" = Except.ok sp_produce :=
  ⟨rfl, fun h => PyVal.noConfusion h, rfl, fun h => PyVal.noConfusion h,
   rfl, fun h => PyVal.noConfusion h, rfl, fun h => PyVal.noConfusion h,
   rfl, rfl, rfl⟩

/-- C5 counterexample: after the finalization of `ir/be/sparc/spec.py`, the
abstract opcodes (e.g. `JumpBase`) all retain their unqualified bare names —
the renaming loop touches only the concrete `nodes` list. -/
theorem finalize_abstract_keeps_bare_names :
    (finalize_nodes sparcDecls).2.map IrOp.name =
      ["SparcBase", "JumpBase", "BranchBase", "BinopBase", "BinopCCBase",
       "BinopCCZeroBase", "BinopXBase"] ∧
    ("JumpBase" : String) ≠ "sparc_JumpBase" :=
  ⟨rfl, by decide⟩

/-- C5 (amended): finalization qualifies exactly the concrete opcodes with the
architecture prefix, preserving order; abstract opcodes are exported unchanged
under their bare names. -/
theorem finalize_qualifies_only_concrete (decls : List Declaration) :
    (finalize_nodes decls).1.map IrOp.name =
      (prepare_nodes decls).1.map (fun n => "sparc_" ++ n.name) ∧
    (finalize_nodes decls).2 = (prepare_nodes decls).2 ∧
    (finalize_nodes sparcDecls).1.map IrOp.name =
      ["sparc_Start", "sparc_Ba", "sparc_Return", "sparc_Call", "sparc_SwitchJmp",
       "sparc_Bicc", "sparc_fbfcc", "sparc_Add", "sparc_AddCC", "sparc_AddCCZero",
       "sparc_AddX", "sparc_Sub", "sparc_SubCC", "sparc_SubCCZero", "sparc_SubX",
       "sparc_Sll", "sparc_Srl", "sparc_Sra", "sparc_And", "sparc_AndN"] := by
  have h : ∀ (l : List IrOp),
      (l.map (fun n => { n with name := "sparc_" ++ n.name })).map IrOp.name =
        l.map (fun n => "sparc_" ++ n.name) := by
    intro l
    rw [List.map_map]
    rfl
  exact ⟨h (prepare_nodes decls).1, rfl, rfl⟩

/-- C7: finalization is deterministic — run twice on an unchanged declaration
set it yields identical ordered output, and the output names are the
declaration-order names, each concrete one carrying the `sparc_` prefix. -/
theorem finalize_nodes_deterministic (d1 d2 : List Declaration) (h : d1 = d2) :
    finalize_nodes d1 = finalize_nodes d2 ∧
    (finalize_nodes d1).1.map IrOp.name =
      (d1.filter (fun d => d.isOp)).map (fun d => "sparc_" ++ d.name) ∧
    (finalize_nodes d1).2.map IrOp.name =
      (d1.filter (fun d => !d.isOp)).map (fun d => d.name) := by
  subst h
  refine ⟨rfl, ?_, ?_⟩
  · have h1 : ∀ (l : List Declaration),
        (((l.map (fun d => ({ name := d.name, spec := resolveChain d.chain } : IrOp))).map
            (fun n => { n with name := "sparc_" ++ n.name })).map IrOp.name) =
          l.map (fun d => "sparc_" ++ d.name) := by
      intro l
      rw [List.map_map, List.map_map]
      rfl
    exact h1 (d1.filter (fun d => d.isOp))
  · have h2 : ∀ (l : List Declaration),
        ((l.map (fun d => ({ name := d.name, spec := resolveChain d.chain } : IrOp))).map
            IrOp.name) = l.map (fun d => d.name) := by
      intro l
      rw [List.map_map]
      rfl
    exact h2 (d1.filter (fun d => !d.isOp))

/-- Witness for C7: the two runs on the transcribed SPARC declaration list
coincide, and the output names follow declaration order. -/
theorem finalize_nodes_deterministic_witness :
    finalize_nodes sparcDecls = finalize_nodes sparcDecls ∧
    (finalize_nodes sparcDecls).1.map IrOp.name =
      (sparcDecls.filter (fun d => d.isOp)).map (fun d => "sparc_" ++ d.name) ∧
    (finalize_nodes sparcDecls).2.map IrOp.name =
      (sparcDecls.filter (fun d => !d.isOp)).map (fun d => d.name) :=
  finalize_nodes_deterministic sparcDecls sparcDecls rfl

/-- C6: base-chain merging is pure per-field override with frame preservation:
an attribute left unset by the derived level is inherited unchanged from the
level below, an attribute it sets carries only the derived value; concretely,
`SwitchJmp` overrides `out_reqs` without assigning `outs`, and the merged
specification keeps `BranchBase`'s `outs` while `out_reqs` is the variadic
marker `SwitchJmp` wrote. -/
theorem mergeSpec_frame (base o : OpSpec) :
    (o.outs = none → (mergeSpec base o).outs = base.outs) ∧
    (∀ v, o.out_reqs = some v → (mergeSpec base o).out_reqs = some v) ∧
    (o.pinned = none → (mergeSpec base o).pinned = base.pinned) ∧
    (o.flags = none → (mergeSpec base o).flags = base.flags) ∧
    (o.beflags = none → (mergeSpec base o).beflags = base.beflags) ∧
    (o.attr_struct = none → (mergeSpec base o).attr_struct = base.attr_struct) ∧
    (o.mode = none → (mergeSpec base o).mode = base.mode) ∧
    (o.ins = none → (mergeSpec base o).ins = base.ins) ∧
    (o.in_reqs = none → (mergeSpec base o).in_reqs = base.in_reqs) ∧
    (o.out_reqs = none → (mergeSpec base o).out_reqs = base.out_reqs) ∧
    (o.outs_reqs = none → (mergeSpec base o).outs_reqs = base.outs_reqs) ∧
    (o.emit = none → (mergeSpec base o).emit = base.emit) ∧
    (o.attr = none → (mergeSpec base o).attr = base.attr) ∧
    (o.init_attr = none → (mergeSpec base o).init_attr = base.init_attr) ∧
    (o.constructors = none → (mergeSpec base o).constructors = base.constructors) ∧
    (resolveChain [SparcBase, JumpBase, BranchBase, SwitchJmp]).outs =
      some (OperandList.fixed ["false", "true"]) ∧
    (resolveChain [SparcBase, JumpBase, BranchBase, SwitchJmp]).out_reqs =
      some OperandList.variadic :=
  ⟨fun h => by simp [mergeSpec, h],
   fun v h => by simp [mergeSpec, h],
   fun h => by simp [mergeSpec, h],
   fun h => by simp [mergeSpec, h],
   fun h => by simp [mergeSpec, h],
   fun h => by simp [mergeSpec, h],
   fun h => by simp [mergeSpec, h],
   fun h => by simp [mergeSpec, h],
   fun h => by simp [mergeSpec, h],
   fun h => by simp [mergeSpec, h],
   fun h => by simp [mergeSpec, h],
   fun h => by simp [mergeSpec, h],
   fun h => by simp [mergeSpec, h],
   fun h => by simp [mergeSpec, h],
   fun h => by simp [mergeSpec, h],
   rfl, rfl⟩

/-- Witness for C6 at the `SwitchJmp` over `BranchBase` merge. -/
theorem mergeSpec_frame_witness :
    (mergeSpec BranchBase SwitchJmp).outs = BranchBase.outs ∧
    (mergeSpec BranchBase SwitchJmp).out_reqs = some OperandList.variadic :=
  ⟨(mergeSpec_frame BranchBase SwitchJmp).1 rfl,
   (mergeSpec_frame BranchBase SwitchJmp).2.1 OperandList.variadic rfl⟩

/-- Helper: full characterisation of one `checkLens` call — it accepts exactly
when `lensCond` holds, and any error it raises names the opcode it was given. -/
theorem checkLens_spec (o f : String) (a : Option (OperandList String))
    (b : Option (OperandList PyReq)) :
    (checkLens o f a b = Except.ok () ↔ lensCond a b = true) ∧
    (∀ e, checkLens o f a b = Except.error e → e.opcode = o) := by
  rcases a with _ | (_ | os) <;> rcases b with _ | (_ | rs) <;>
    simp only [checkLens, lensCond] <;>
    try exact ⟨by simp, fun e he => by cases he⟩
  by_cases h : os.length = rs.length
  · rw [if_pos h]
    exact ⟨by simp [h], fun e he => by cases he⟩
  · rw [if_neg h]
    constructor
    · constructor
      · intro he
        cases he
      · intro hc
        exact absurd (beq_iff_eq.mp hc) h
    · intro e he
      injection he with he
      rw [← he]

/-- Helper: full characterisation of `checkConstructors`. -/
theorem checkConstructors_spec (o : String) (cs : List Constructor) :
    (checkConstructors o cs = Except.ok () ↔
      cs.all (fun c => c.in_reqs.length == c.ins.length) = true) ∧
    (∀ e, checkConstructors o cs = Except.error e → e.opcode = o) := by
  induction cs with
  | nil => exact ⟨by simp [checkConstructors], fun e he => by cases he⟩
  | cons c cs ih =>
      by_cases h : c.in_reqs.length = c.ins.length
      · constructor
        · rw [checkConstructors, if_pos h]
          simp [ih.1, h]
        · intro e he
          rw [checkConstructors, if_pos h] at he
          exact ih.2 e he
      · constructor
        · rw [checkConstructors, if_neg h]
          constructor
          · intro he
            cases he
          · intro hc
            simp at hc
            exact absurd hc.1 h
        · intro e he
          rw [checkConstructors, if_neg h] at he
          injection he with he
          rw [← he]

/-- C2: the validation pass accepts a merged node specification exactly when
every fixed operand list matches its fixed requirement list in length (for
outputs and, symmetrically, inputs) and every constructor's requirement list
is as long as its named-operand list; any violation fails with a
`MalformedSpecError` naming the offending opcode. -/
theorem validateNode_checks_lengths (opcode : String) (s : OpSpec)
    (e : MalformedSpecError) :
    (validateNode opcode s = Except.ok () ↔ specLensOk s = true) ∧
    (validateNode opcode s = Except.error e → e.opcode = opcode) := by
  have h1 := checkLens_spec opcode "out_reqs" s.outs s.out_reqs
  have h2 := checkLens_spec opcode "in_reqs" s.ins s.in_reqs
  have h3 := checkConstructors_spec opcode (s.constructors.getD [])
  rcases hc1 : checkLens opcode "out_reqs" s.outs s.out_reqs with e1 | u1
  · have hl1 : lensCond s.outs s.out_reqs = false := by
      rcases hb : lensCond s.outs s.out_reqs with _ | _
      · rfl
      · rw [h1.1.mpr hb] at hc1
        cases hc1
    constructor
    · rw [validateNode, hc1]
      simp [specLensOk, hl1]
    · intro he
      rw [validateNode, hc1] at he
      injection he with he
      rw [← he]
      exact h1.2 e1 hc1
  · obtain ⟨⟩ := u1
    have hl1 : lensCond s.outs s.out_reqs = true := h1.1.mp hc1
    rcases hc2 : checkLens opcode "in_reqs" s.ins s.in_reqs with e2 | u2
    · have hl2 : lensCond s.ins s.in_reqs = false := by
        rcases hb : lensCond s.ins s.in_reqs with _ | _
        · rfl
        · rw [h2.1.mpr hb] at hc2
          cases hc2
      constructor
      · rw [validateNode, hc1, hc2]
        simp [specLensOk, hl2]
      · intro he
        rw [validateNode, hc1, hc2] at he
        injection he with he
        rw [← he]
        exact h2.2 e2 hc2
    · obtain ⟨⟩ := u2
      have hl2 : lensCond s.ins s.in_reqs = true := h2.1.mp hc2
      constructor
      · rw [validateNode, hc1, hc2]
        rw [h3.1]
        simp [specLensOk, hl1, hl2]
      · intro he
        rw [validateNode, hc1, hc2] at he
        exact h3.2 e he

/-- Witness for C2 at spec scenario 3: an `immediate` constructor variant with
one named input `left` but two requirements is rejected with a
`MalformedSpecError` naming the opcode. -/
theorem validateNode_checks_lengths_witness :
    ((validateNode "immop" immBadSpec = Except.ok () ↔
        specLensOk immBadSpec = true) ∧
      (validateNode "immop" immBadSpec =
          Except.error { opcode := "immop", field := "ins" } →
        ({ opcode := "immop", field := "ins" } : MalformedSpecError).opcode =
          "immop")) ∧
    validateNode "immop" immBadSpec =
      Except.error { opcode := "immop", field := "ins" } ∧
    specLensOk immBadSpec = false :=
  ⟨validateNode_checks_lengths "immop" immBadSpec
      { opcode := "immop", field := "ins" }, rfl, rfl⟩

/-- C8: a variadic `in_reqs`/`out_reqs` marker bypasses the fixed-length match
check entirely — validation reduces to the constructor checks alone, whatever
the fixed `outs`/`ins` lists say. -/
theorem validateNode_variadic_bypass (opcode : String) (s : OpSpec)
    (hin : s.in_reqs = some OperandList.variadic)
    (hout : s.out_reqs = some OperandList.variadic) :
    validateNode opcode s = checkConstructors opcode (s.constructors.getD []) := by
  have hA : checkLens opcode "out_reqs" s.outs s.out_reqs = Except.ok () := by
    rw [hout]
    rcases s.outs with _ | (_ | os) <;> rfl
  have hB : checkLens opcode "in_reqs" s.ins s.in_reqs = Except.ok () := by
    rw [hin]
    rcases s.ins with _ | (_ | xs) <;> rfl
  rw [validateNode, hA, hB]

/-- Witness for C8 at the merged `Call` node: `in_reqs` and `out_reqs` are
variadic while `outs` is a fixed 3-element list, and validation accepts. -/
theorem validateNode_variadic_bypass_witness :
    validateNode "Call" CallResolved =
      checkConstructors "Call" (CallResolved.constructors.getD []) ∧
    CallResolved.in_reqs = some OperandList.variadic ∧
    CallResolved.out_reqs = some OperandList.variadic ∧
    CallResolved.outs = some (OperandList.fixed ["M", "stack", "first_result"]) ∧
    validateNode "Call" CallResolved = Except.ok () :=
  ⟨validateNode_variadic_bypass "Call" CallResolved rfl rfl, rfl, rfl, rfl, rfl⟩

/-- C4: `singlereq` is reflexive and fails exactly on unknown names — for every
register `r` of a name-unique class, looking up `r.name` yields a requirement
bound to `r` itself, and looking up a name absent from the class raises the
source's error. -/
theorem singlereq_reflexive (cls : RegClass) (r : Register) (nm : String)
    (hnodup : (cls.registers.map Register.name).Nodup)
    (hr : r ∈ cls.registers)
    (hnm : nm ∉ cls.registers.map Register.name) :
    singlereq cls r.name =
      Except.ok { kind := ReqKind.singlereq, cls := some cls, reg := some r } ∧
    singlereq cls nm =
      Except.error ("No register named " ++ nm ++ " in regclass " ++ cls.name) := by
  constructor
  · rw [singlereq, find?_name_of_mem hnodup hr]
  · have hnone : cls.registers.find? (fun x => x.name == nm) = none := by
      apply List.find?_eq_none.mpr
      intro x hx hbeq
      exact hnm (eq_of_beq hbeq ▸ List.mem_map_of_mem Register.name hx)
    rw [singlereq, hnone]

/-- Witness for C4 on the `gp` class: looking up `sp` binds the stack pointer
register itself; looking up a name not declared in `gp` errors out. -/
theorem singlereq_reflexive_witness :
    singlereq gp (reg "sp").name =
      Except.ok { kind := ReqKind.singlereq, cls := some gp, reg := some (reg "sp") } ∧
    singlereq gp "bogus" =
      Except.error ("No register named " ++ "bogus" ++ " in regclass " ++ gp.name) :=
  singlereq_reflexive gp (reg "sp") "bogus" (by decide) (by decide) (by decide)

/-- C10: `singlereq` — and through it `producestackreq` — binds the requirement
to the first register in declaration order whose name matches, scanning the
class's register list front to back. -/
theorem singlereq_first_match (cls : RegClass) (nm : String) (i : Nat)
    (hi : i < cls.registers.length)
    (hname : (cls.registers.get ⟨i, hi⟩).name = nm)
    (hfirst : ∀ j (hj : j < i), (cls.registers.get ⟨j, Nat.lt_trans hj hi⟩).name ≠ nm) :
    singlereq cls nm =
      Except.ok { kind := ReqKind.singlereq, cls := some cls,
                  reg := some (cls.registers.get ⟨i, hi⟩) } ∧
    producestackreq cls nm =
      Except.ok { kind := ReqKind.producestackreq, cls := some cls,
                  reg := some (cls.registers.get ⟨i, hi⟩) } := by
  have hfind : cls.registers.find? (fun x => x.name == nm) =
      some (cls.registers.get ⟨i, hi⟩) :=
    find?_first _ _ i hi (beq_iff_eq.mpr hname)
      (fun j hj => beq_eq_false_iff_ne.mpr (hfirst j hj))
  constructor
  · rw [singlereq, hfind]
  · rw [producestackreq, singlereq, hfind]
    rfl

/-- Witness for C10 on a class that declares the name `x` twice (indices 0 and
2): the requirement binds to index 0, the first match. -/
theorem singlereq_first_match_witness :
    singlereq dupcls "x" =
      Except.ok { kind := ReqKind.singlereq, cls := some dupcls,
                  reg := some (dupcls.registers.get ⟨0, by decide⟩) } ∧
    producestackreq dupcls "x" =
      Except.ok { kind := ReqKind.producestackreq, cls := some dupcls,
                  reg := some (dupcls.registers.get ⟨0, by decide⟩) } :=
  singlereq_first_match dupcls "x" 0 (by decide) (by decide)
    (fun j hj => absurd hj (Nat.not_lt_zero j))

/-- C1: for a register at declaration index `i` of a name-unique class,
`make_limit_bitset` emits `(n_regs + 31) / 32` (i.e. ceil(N/32)) words, and
under any environment giving the symbolic constant `REG_<CLASS>_<REGISTER>`
its value `i`, exactly one word is non-zero: word `i / 32` holds the single
bit `2 ^ (i % 32)`, every other word is `0`. -/
theorem make_limit_bitset_single_bit (cls : RegClass) (i : Nat) (env : String → Nat)
    (hi : i < cls.registers.length)
    (hnodup : (cls.registers.map Register.name).Nodup)
    (henv : env (regSym cls (cls.registers.get ⟨i, hi⟩)) = i) :
    make_limit_bitset cls (cls.registers.get ⟨i, hi⟩) =
      "\x7b " ++ String.intercalate ", "
        ((make_limit_words cls (cls.registers.get ⟨i, hi⟩)).map renderWord) ++ " \x7d" ∧
    (make_limit_words cls (cls.registers.get ⟨i, hi⟩)).length =
      (cls.registers.length + 31) / 32 ∧
    (make_limit_words cls (cls.registers.get ⟨i, hi⟩)).map (evalWord env) =
      (List.range ((cls.registers.length + 31) / 32)).map
        (fun b => if b = i / 32 then 2 ^ (i % 32) else 0) := by
  have hidx : cls.registers.indexOf (cls.registers.get ⟨i, hi⟩) = i := by
    have hnd : cls.registers.Nodup := hnodup.of_map _
    exact List.indexOf_getElem hnd i hi
  refine ⟨rfl, by simp [make_limit_words], ?_⟩
  simp only [make_limit_words, hidx]
  rw [List.map_map]
  apply List.map_congr_left
  intro b hb
  by_cases hcase : b = i / 32
  · subst hcase
    have hcond : i / 32 * 32 ≤ i ∧ i < (i / 32 + 1) * 32 := by omega
    by_cases hz : 0 < i / 32
    · simp only [Function.comp, if_pos hcond, if_pos hz, evalWord, henv]
      simp
    · have hi32 : i % 32 = i := by omega
      simp only [Function.comp, if_pos hcond, if_neg hz, evalWord, henv, hi32]
      simp
  · have hcond : ¬(b * 32 ≤ i ∧ i < (b + 1) * 32) := by omega
    simp only [Function.comp, if_neg hcond, evalWord, if_neg hcase]

/-- Witness for C1 at spec scenario 1: the 32-entry `gp` class with `sp` at
slot 14 yields a single word with exactly bit 14 set, rendered as
`(1 << REG_GP_SP)`. -/
theorem make_limit_bitset_single_bit_witness :
    make_limit_bitset gp (gp.registers.get ⟨14, by decide⟩) =
      "\x7b " ++ String.intercalate ", "
        ((make_limit_words gp (gp.registers.get ⟨14, by decide⟩)).map renderWord) ++
        " \x7d" ∧
    (make_limit_words gp (gp.registers.get ⟨14, by decide⟩)).length =
      (gp.registers.length + 31) / 32 ∧
    (make_limit_words gp (gp.registers.get ⟨14, by decide⟩)).map
        (evalWord (fun _ => 14)) =
      (List.range ((gp.registers.length + 31) / 32)).map
        (fun b => if b = 14 / 32 then 2 ^ (14 % 32) else 0) :=
  make_limit_bitset_single_bit gp 14 (fun s => 14) (by decide) (by decide) rfl

end Firm
